import Mathlib

/-!
# libclsp: the JSON writer, registration options and the cancelRequest capability

A shallow embedding of

* `src/server/jsonWriter.cpp` (`JsonWriter::Object`, `Number`, `Array`, `Any`),
* `src/types/textDocumentRegistration.cpp`
  (`TextDocumentRegistrationOptions::partialWrite`),
* `include/libclsp/types/declaration.hpp`, `documentRangeFormatting.hpp`
  (the `partialWrite` overriders of the registration options),
* `src/server/capability.cpp` (`Capability::cancelRequest`),
* `include/libclsp/types/codeAction.hpp` (`CodeActionKind::operator<`,
  `CodeActionParams::fillInitializer`),

followed by the properties proved about them.

Conventions.  A C++ member function `bool T::f(args)` that mutates `*this`
becomes `T.f : T → args → Boolean × T`; a `void` one returns the new `T`.
A `std::variant` becomes an inductive type with one constructor per
alternative and `std::visit(overload(...))` becomes a `match` with one arm per
lambda.  A `std::vector` is a `List`, the range-`for` over it a `List.foldl`.
-/

set_option autoImplicit false

/-- The C++ `std::string`. -/
abbrev StdString : Type := String

/-- The C++ `int`; the writer only carries it, no arithmetic is done on it. -/
abbrev int : Type := Int

/-- The C++ `double`, as its IEEE-754 bit pattern; the writer only carries it. -/
structure double where
  bits : Nat
  deriving DecidableEq, Repr

namespace clsp

/-! ## JSON types (the alternatives are those of the `visit` calls in jsonWriter.cpp) -/

/-- C++ `clsp::String` -/
abbrev String : Type := StdString

/-- C++ `clsp::Boolean`, also used for the C++ `bool` -/
abbrev Boolean : Type := Bool

/-- C++ `clsp::Null` -/
abbrev Null : Type := Unit

/-- C++ `clsp::Number`: the alternatives `int` and `double` visited by `JsonWriter::Number`. -/
inductive Number where
  | int (n : int)
  | double (n : double)
  deriving DecidableEq, Repr

/-- Token events received by the output sink (rapidjson handler events). -/
inductive Event where
  | Key (str : StdString)
  | String (str : StdString)
  | Int (n : int)
  | Double (n : double)
  | Bool (b : Boolean)
  | Null
  | StartArray
  | EndArray
  | StartObject
  | EndObject
  deriving DecidableEq, Repr

/-- Modelled from the spec: `ObjectT` (libclsp/types/objectT.hpp) is not in src.
Its virtual `write(JsonWriter&)` is "purely additive to the output sink", so an
object is represented by the token events its `write` sends to the writer. -/
structure ObjectT where
  events : List Event
  deriving DecidableEq, Repr

/-- C++ `clsp::Object`: a (non-null) reference to an `ObjectT`. -/
abbrev Object : Type := ObjectT

/-- Element of a `clsp::Array`: the five alternatives visited in
`JsonWriter::Array`. -/
inductive ArrayValue where
  | String (str : StdString)
  | Number (n : clsp.Number)
  | Boolean (b : Boolean)
  | Null
  | Object (obj : ObjectT)
  deriving DecidableEq, Repr

/-- C++ `clsp::Array` -/
abbrev Array : Type := List ArrayValue

/-- C++ `clsp::Any`: the six alternatives visited in `JsonWriter::Any`. -/
inductive Any where
  | String (str : StdString)
  | Number (n : clsp.Number)
  | Boolean (b : Boolean)
  | Null
  | Object (obj : ObjectT)
  | Array (a : List ArrayValue)
  deriving DecidableEq, Repr

/-! ## The writer -/

/-- C++ `JsonWriter`, a rapidjson `Writer<StringBuffer>`.  `buffer` is the sequence of
token events sent so far (oldest first).  `accept` is the `bool` the rapidjson
base class returns for an emission, which may depend on what was sent before;
rapidjson is outside src, so it is a parameter. -/
structure JsonWriter where
  buffer : List Event
  accept : List Event → Event → Boolean

namespace JsonWriter

/-- One emission of the base writer: the event is appended and the flag returned. -/
def emit (w : JsonWriter) (e : Event) : Boolean × JsonWriter :=
  (w.accept w.buffer e, { w with buffer := w.buffer ++ [e] })

/-- Base class `Key(str)`. -/
def Key (w : JsonWriter) (str : clsp.String) : Boolean × JsonWriter :=
  w.emit (Event.Key str)

/-- Base class `String(str)`. -/
def String (w : JsonWriter) (str : clsp.String) : Boolean × JsonWriter :=
  w.emit (Event.String str)

/-- Base class `Int(n)`. -/
def Int (w : JsonWriter) (n : int) : Boolean × JsonWriter :=
  w.emit (Event.Int n)

/-- Base class `Double(n)`. -/
def Double (w : JsonWriter) (n : double) : Boolean × JsonWriter :=
  w.emit (Event.Double n)

/-- Base class `Bool(b)`. -/
def Bool (w : JsonWriter) (b : Boolean) : Boolean × JsonWriter :=
  w.emit (Event.Bool b)

/-- Base class `Null()`. -/
def Null (w : JsonWriter) : Boolean × JsonWriter :=
  w.emit Event.Null

/-- Base class `StartArray()`. -/
def StartArray (w : JsonWriter) : Boolean × JsonWriter :=
  w.emit Event.StartArray

/-- Base class `EndArray()`. -/
def EndArray (w : JsonWriter) : Boolean × JsonWriter :=
  w.emit Event.EndArray

end JsonWriter

/-- Modelled from the spec: `ObjectT::write(JsonWriter&)` is not in src.  Every
event of the object goes through the base writer, in order; the flags are
dropped (`write` returns `void`). -/
def ObjectT.write (obj : ObjectT) (writer : JsonWriter) : JsonWriter :=
  obj.events.foldl (fun w e => (w.emit e).2) writer

namespace JsonWriter

/-- C++ `bool JsonWriter::Object(ObjectT &obj)` (jsonWriter.cpp 30-35). -/
def Object (w : JsonWriter) (obj : ObjectT) : Boolean × JsonWriter :=
  let w := obj.write w
  (true, w)

/-- C++ `bool JsonWriter::Number(clsp::Number n)` (jsonWriter.cpp 37-54). -/
def Number (w : JsonWriter) (n : clsp.Number) : Boolean × JsonWriter :=
  match n with
  | .int n => w.Int n
  | .double n => w.Double n

/-- Body of the `for` loop of `JsonWriter::Array`: one `visit` of the element
`ii`, with `result &= ...` in every arm. -/
def Array.visit (acc : Boolean × JsonWriter) (ii : ArrayValue) : Boolean × JsonWriter :=
  let result := acc.1
  let w := acc.2
  match ii with
  | .String str => let r := w.String str; (result && r.1, r.2)
  | .Number n => let r := w.Number n; (result && r.1, r.2)
  | .Boolean b => let r := w.Bool b; (result && r.1, r.2)
  | .Null => let r := w.Null; (result && r.1, r.2)
  | .Object obj => let r := w.Object obj; (result && r.1, r.2)

/-- C++ `bool JsonWriter::Array(clsp::Array &a)` (jsonWriter.cpp 56-90). -/
def Array (w : JsonWriter) (a : clsp.Array) : Boolean × JsonWriter :=
  let result := true
  let w := w.StartArray.2
  let r := a.foldl Array.visit (result, w)
  let w := r.2.EndArray.2
  (r.1, w)

/-- C++ `bool JsonWriter::Any(clsp::Any &a)` (jsonWriter.cpp 92-125). -/
def Any (w : JsonWriter) (a : clsp.Any) : Boolean × JsonWriter :=
  match a with
  | .String str => w.String str
  | .Number n => w.Number n
  | .Boolean b => w.Bool b
  | .Null => w.Null
  | .Object obj => w.Object obj
  | .Array a => w.Array a

end JsonWriter

/-! ## Registration options -/

/-- C++ `DocumentFilter` is declared outside src; `writer.Object(i)` only uses that
it is an `ObjectT`. -/
abbrev DocumentFilter : Type := ObjectT

/-- C++ `DocumentSelector`, a vector of document filters. -/
abbrev DocumentSelector : Type := List DocumentFilter

/-- C++ `variant<DocumentSelector, Null>` -/
inductive DocumentSelectorOrNull where
  | DocumentSelector (arr : clsp.DocumentSelector)
  | Null
  deriving DecidableEq, Repr

/-- C++ `TextDocumentRegistrationOptions` (textDocumentRegistration.cpp). -/
structure TextDocumentRegistrationOptions where
  documentSelector : DocumentSelectorOrNull
  deriving DecidableEq, Repr

/-- C++ `TextDocumentRegistrationOptions::documentSelectorKey` -/
def TextDocumentRegistrationOptions.documentSelectorKey : clsp.String := "documentSelector"

/-- C++ `void TextDocumentRegistrationOptions::partialWrite(JsonWriter &writer)`
(textDocumentRegistration.cpp 35-54). -/
def TextDocumentRegistrationOptions.partialWrite
    (self : TextDocumentRegistrationOptions) (writer : JsonWriter) : JsonWriter :=
  let writer := (writer.Key TextDocumentRegistrationOptions.documentSelectorKey).2
  match self.documentSelector with
  | .DocumentSelector arr =>
    let writer := writer.StartArray.2
    let writer := arr.foldl (fun w i => (w.Object i).2) writer
    writer.EndArray.2
  | .Null => writer.Null.2

section RegistrationOptions

/- `ProgressToken` is declared outside src; it only occurs as the payload of an
optional field that the code below never reads. -/
variable (ProgressToken : Type)

/-- C++ `WorkDoneProgressOptions` (alias `DeclarationOptions`,
`DocumentRangeFormattingOptions`): the mixin holding `workDoneProgress`. -/
structure WorkDoneProgressOptions where
  workDoneProgress : Option ProgressToken

/-- C++ `StaticRegistrationOptions`: the mixin holding `id`. -/
structure StaticRegistrationOptions where
  id : Option clsp.String

/-- C++ `DeclarationRegistrationOptions` (declaration.hpp 75-95), with its three
base-class subobjects in declaration order. -/
structure DeclarationRegistrationOptions where
  toDeclarationOptions : WorkDoneProgressOptions ProgressToken
  toTextDocumentRegistrationOptions : TextDocumentRegistrationOptions
  toStaticRegistrationOptions : StaticRegistrationOptions

variable {ProgressToken}

/-- C++ `virtual void partialWrite(JsonWriter&)` with an empty body, of
`DeclarationRegistrationOptions` (declaration.hpp 81-83, under a `TODO`). -/
def DeclarationRegistrationOptions.partialWrite
    (_self : DeclarationRegistrationOptions ProgressToken) (writer : JsonWriter) : JsonWriter :=
  writer

/-- C++ `DocumentRangeFormattingRegistrationOptions`
(documentRangeFormatting.hpp 59-79), with its two base-class subobjects. -/
structure DocumentRangeFormattingRegistrationOptions (ProgressToken : Type) where
  toTextDocumentRegistrationOptions : TextDocumentRegistrationOptions
  toDocumentRangeFormattingOptions : WorkDoneProgressOptions ProgressToken

/-- C++ `virtual void partialWrite(JsonWriter&)` with an empty body, of
`DocumentRangeFormattingRegistrationOptions` (documentRangeFormatting.hpp 64-66,
under a `TODO`). -/
def DocumentRangeFormattingRegistrationOptions.partialWrite
    (_self : DocumentRangeFormattingRegistrationOptions ProgressToken) (writer : JsonWriter) :
    JsonWriter :=
  writer

end RegistrationOptions

/-! ## Reading: setters, registries, the handler -/

/-- Modelled from the spec: `ValueSetter` is declared outside src.  It is the
FieldSetter of the spec, "a record of six optional callbacks", in the order of
the aggregate initialisation in capability.cpp (String, Number, Boolean, Null,
Array, Object).  A callback acts on the objects its closure refers to (`σ`);
`none` is undefined behaviour (a dangling reference). -/
structure ValueSetter (σ : Type) where
  onText : Option (clsp.String → σ → Option σ)
  onNumber : Option (clsp.Number → σ → Option σ)
  onBool : Option (Boolean → σ → Option σ)
  onNull : Option (σ → Option σ)
  onArrayStart : Option (σ → Option σ)
  onObjectStart : Option (σ → Option σ)

/-- Modelled from the spec: `ObjectInitializer` is declared outside src.  It is
the FieldRegistry of the spec, an "ordered mapping from field name to Field
Setter"; `S` is the type of the stored setters. -/
structure ObjectInitializer (S : Type) where
  fields : List (clsp.String × S)

/-- Modelled from the spec: the default-constructed `ObjectInitializer`, a
registry without fields. -/
def ObjectInitializer.empty {S : Type} : ObjectInitializer S :=
  { fields := [] }

/-- Modelled from the spec: lookup of a field name, whether the registry has an
entry for `key`. -/
def ObjectInitializer.contains {S : Type} (self : ObjectInitializer S) (key : clsp.String) :
    Boolean :=
  self.fields.any (fun kv => kv.1 == key)

/-- C++ `JsonHandler`, declared outside src: its parse stack `objectStack` (used in
capability.cpp through `handler.objectStack.top()`), top first. -/
structure JsonHandler (S : Type) where
  objectStack : List (ObjectInitializer S)

/-- Modelled from the spec: `JsonHandler::pushInitializer` is not in src.
"Object-start token ... push a new FieldRegistry": a new empty registry becomes
the top of the parse stack. -/
def JsonHandler.pushInitializer {S : Type} (handler : JsonHandler S) : JsonHandler S :=
  { handler with objectStack := ObjectInitializer.empty :: handler.objectStack }

/-- C++ `std::any` as far as capability.cpp uses it: empty, holding a `CancelParams`
(type `P`), or holding a value of some other type. -/
inductive StdAny (P : Type) where
  | empty
  | CancelParams (value : P)
  | other (typeName : StdString)

/-- What capability.cpp uses of `CancelParams`, whose declaration is outside src:
its default constructor, its being an `ObjectT`, and its virtual
`fillInitializer(ObjectInitializer&)`. -/
structure CancelParamsDecl (P S : Type) where
  ctor : P
  toObjectT : P → ObjectT
  fillInitializer : P → ObjectInitializer S → ObjectInitializer S

/-- The two objects the reader receives by reference and its closure keeps
referring to: `JsonHandler& handler` and `optional<any>& data`. -/
structure Refs (P S : Type) where
  handler : JsonHandler S
  data : Option (StdAny P)

/-- C++ `Capability::JsonIO` -/
structure JsonIO (P S : Type) where
  writer : Option (JsonWriter → StdAny P → Option JsonWriter)
  reader : Option (Refs P S → ValueSetter (Refs P S) × Refs P S)

/-- C++ `Capability` -/
structure Capability (P S : Type) where
  method : clsp.String
  params : JsonIO P S
  result : Option ( JsonIO P S)

section CancelRequest

variable {P S : Type}

/-- Writer lambda of `Capability::cancelRequest` (capability.cpp 51-54);
`any_cast<CancelParams&>` throws when `data` holds something else (`none`). -/
def Capability.cancelRequest_writer (decl : CancelParamsDecl P S)
    (writer : JsonWriter) (data : StdAny P) : Option JsonWriter :=
  match data with
  | .CancelParams params => some (writer.Object (decl.toObjectT params)).2
  | _ => none

/-- Object lambda of the setter returned by the reader (capability.cpp 78-82),
capturing `handler` and `params` by reference; `params` is the `CancelParams`
held by `data`. -/
def Capability.cancelRequest_reader_Object (decl : CancelParamsDecl P S)
    (refs : Refs P S) : Option (Refs P S) :=
  match refs.data with
  | some (.CancelParams params) =>
    let handler := refs.handler.pushInitializer
    match handler.objectStack with
    | top :: rest =>
      some { refs with
        handler := { handler with objectStack := decl.fillInitializer params top :: rest } }
    | [] => none
  | _ => none

/-- Reader lambda of `Capability::cancelRequest` (capability.cpp 57-84). -/
def Capability.cancelRequest_reader (decl : CancelParamsDecl P S)
    (refs : Refs P S) : ValueSetter (Refs P S) × Refs P S :=
  -- auto& params = data.emplace().emplace<CancelParams>();
  let data : Option (StdAny P) := some StdAny.empty
  let data : Option (StdAny P) := data.map (fun _ => StdAny.CancelParams decl.ctor)
  ({ onText := none
     onNumber := none
     onBool := none
     onNull := none
     onArrayStart := none
     onObjectStart := some (Capability.cancelRequest_reader_Object decl) },
   { refs with data := data })

/-- C++ `const Capability Capability::cancelRequest` (capability.cpp 45-84). -/
def Capability.cancelRequest (decl : CancelParamsDecl P S) : Capability P S :=
  { method := "$/cancelRequest"
    params :=
      { writer := some (Capability.cancelRequest_writer decl)
        reader := some (Capability.cancelRequest_reader decl) }
    result := none }

end CancelRequest

end clsp

/-! ## The comparison of `std::string` -/

/-- C++ `std::string::compare`, on the characters of the two strings: the first
position where they differ decides (`char_traits::compare` over the common
length); when one is a prefix of the other the shorter is smaller.  Characters
are compared by code point, which orders UTF-8 text as the unsigned bytes do. -/
def StdString.compare : List Char → List Char → Ordering
  | [], [] => Ordering.eq
  | [], _ :: _ => Ordering.lt
  | _ :: _, [] => Ordering.gt
  | a :: as, b :: bs =>
    if a < b then Ordering.lt
    else if b < a then Ordering.gt
    else StdString.compare as bs

/-- C++ `operator<` of `std::string`: `lhs.compare(rhs) < 0`. -/
def StdString.less (lhs rhs : StdString) : Bool :=
  StdString.compare lhs.data rhs.data == Ordering.lt

namespace libclsp

/-! ## codeAction.hpp (namespace `libclsp`) -/

/-- C++ `CodeActionKind` (codeAction.hpp 34-100): a kind is its string. -/
structure CodeActionKind where
  kind : StdString
  deriving DecidableEq, Repr

/-- C++ `operator String()` of `CodeActionKind`. -/
def CodeActionKind.toString (self : CodeActionKind) : StdString :=
  self.kind

/-- C++ `bool operator<(CodeActionKind& other)` (codeAction.hpp 43-46):
`this->kind < other.kind`. -/
def CodeActionKind.operator_lt (self other : CodeActionKind) : Bool :=
  StdString.less self.kind other.kind

section CodeAction

/- Declared outside src; only carried as field payloads. -/
variable (ProgressToken TextDocumentIdentifier Range CodeActionContext : Type)

/-- C++ `WorkDoneProgressParams`: the mixin holding `workDoneToken`. -/
structure WorkDoneProgressParams where
  workDoneToken : Option ProgressToken

/-- C++ `PartialResultParams`: the mixin holding `partialResultToken`. -/
structure PartialResultParams where
  partialResultToken : Option ProgressToken

/-- C++ `CodeActionParams` (codeAction.hpp 278-315): two mixins, then the own fields
`textDocument`, `range`, `context`. -/
structure CodeActionParams where
  toWorkDoneProgressParams : WorkDoneProgressParams ProgressToken
  toPartialResultParams : PartialResultParams ProgressToken
  textDocument : TextDocumentIdentifier
  range : Range
  context : CodeActionContext

variable {ProgressToken TextDocumentIdentifier Range CodeActionContext}

/-- C++ `virtual void fillInitializer(ObjectInitializer&)` with an empty body, of
`CodeActionParams`
(codeAction.hpp 283-286, under a `FIXME`). -/
def CodeActionParams.fillInitializer {S : Type}
    (_self : CodeActionParams ProgressToken TextDocumentIdentifier Range CodeActionContext)
    (initializer : clsp.ObjectInitializer S) : clsp.ObjectInitializer S :=
  initializer

end CodeAction

end libclsp

/-! ## Specification-side definitions

These follow the words of the specification and are what the embedded code is
compared with; none of them is used by the code above. -/

namespace Spec

open clsp

/-- Specification: the single token event of a number, "chosen by the variant's
stored tag" (Integer as an integer event, Real as a real event). -/
def numberEvent : clsp.Number → Event
  | .int n => Event.Int n
  | .double n => Event.Double n

/-- Specification: the token events of one element of a sequence, by its kind;
an Object delegates to the object's own emission. -/
def elementEvents : ArrayValue → List Event
  | .String str => [Event.String str]
  | .Number n => [numberEvent n]
  | .Boolean b => [Event.Bool b]
  | .Null => [Event.Null]
  | .Object obj => obj.events

/-- Specification: "For Sequence, emit an array start, recursively write each
element, then array end." -/
def sequenceEvents (a : clsp.Array) : List Event :=
  [Event.StartArray] ++ a.flatMap elementEvents ++ [Event.EndArray]

/-- Specification: the value written after the key of a nullable document
selector: `null`, or the array of the filters' objects. -/
def documentSelectorEvents : DocumentSelectorOrNull → List Event
  | .Null => [Event.Null]
  | .DocumentSelector arr =>
    [Event.StartArray] ++ arr.flatMap (fun i => i.events) ++ [Event.EndArray]

/-- Specification: "every primitive emission (string, int, double, bool, null)
returns true", for the flag function `accept` of a writer. -/
def primitivesSucceed (accept : List Event → Event → Boolean) : Prop :=
  (∀ buf str, accept buf (Event.String str) = true) ∧
  (∀ buf n, accept buf (Event.Int n) = true) ∧
  (∀ buf n, accept buf (Event.Double n) = true) ∧
  (∀ buf b, accept buf (Event.Bool b) = true) ∧
  (∀ buf, accept buf Event.Null = true)

/-- Specification: the events a call has sent, those of the buffer `after` the
call that follow the buffer `before` it. -/
def emitted (before after : JsonWriter) : List Event :=
  after.buffer.drop before.buffer.length

/-- Specification (§6): an open nesting level, of an array or of an object. -/
inductive Level where
  | array
  | object
  deriving DecidableEq, Repr

/-- Specification (§6): one token event read against the open levels (innermost
first): a Start opens a level, an End closes the innermost level when that is of
its kind and is refused (`none`) otherwise, any other event leaves the levels. -/
def step (open_ : List Level) : Event → Option (List Level)
  | Event.StartArray => some (Level.array :: open_)
  | Event.StartObject => some (Level.object :: open_)
  | Event.EndArray =>
    match open_ with
    | Level.array :: rest => some rest
    | _ => none
  | Event.EndObject =>
    match open_ with
    | Level.object :: rest => some rest
    | _ => none
  | _ => some open_

/-- Specification (§6): the open levels after a sequence of events, `none` when
some End is refused. -/
def scan : List Level → List Event → Option (List Level)
  | open_, [] => some open_
  | open_, e :: es => (step open_ e).bind (fun next => scan next es)

/-- Specification (§6): "well-formed with respect to JSON nesting (every Start
is matched by exactly one End at the same depth)": read from no open level, the
events end with no open level. -/
def balanced (es : List Event) : Prop :=
  scan [] es = some []

instance (es : List Event) : Decidable (balanced es) :=
  inferInstanceAs (Decidable (scan [] es = some []))

/-- Specification: array starts minus array ends of a sequence of events. -/
def arrayDepth (es : List Event) : Int :=
  (es.count Event.StartArray : Int) - (es.count Event.EndArray : Int)

/-- Specification: the sequence is balanced, no prefix of it has a refused End,
its array starts and array ends are equally many and no prefix closes more
arrays than it opened. -/
def wellNested (es : List Event) : Prop :=
  balanced es ∧
  (∀ n, (scan [] (es.take n)).isSome = true) ∧
  arrayDepth es = 0 ∧
  (∀ n, 0 ≤ arrayDepth (es.take n))

/-- Specification: the objects that are elements of a sequence. -/
def arrayObjects (a : clsp.Array) : List ObjectT :=
  a.filterMap (fun ii => match ii with
    | ArrayValue.Object obj => some obj
    | _ => none)

/-- Specification: the objects nested in an Any value. -/
def anyObjects : clsp.Any → List ObjectT
  | clsp.Any.Object obj => [obj]
  | clsp.Any.Array a => arrayObjects a
  | _ => []

/-- Specification: the document filters of a nullable document selector. -/
def selectorObjects : DocumentSelectorOrNull → List ObjectT
  | DocumentSelectorOrNull.DocumentSelector arr => arr
  | DocumentSelectorOrNull.Null => []

/-- Specification (§3): the JsonValue, a "sum type over" Text, Integer, Real,
Boolean, Null, Sequence of JsonValue, and Object. -/
inductive JsonValue where
  | Text (value : StdString)
  | Integer (value : int)
  | Real (value : double)
  | Boolean (value : Bool)
  | Null
  | Sequence (elements : List JsonValue)
  | Object (obj : ObjectT)

end Spec

namespace clsp

/-- The JsonValue of the specification that an element of a `clsp::Array` denotes. -/
def ArrayValue.toJsonValue : ArrayValue → Spec.JsonValue
  | .String str => .Text str
  | .Number (.int n) => .Integer n
  | .Number (.double n) => .Real n
  | .Boolean b => .Boolean b
  | .Null => .Null
  | .Object obj => .Object obj

/-- The conversion of an element of a `clsp::Array` to a `clsp::Any` holding the
same alternative. -/
def ArrayValue.toAny : ArrayValue → clsp.Any
  | .String str => .String str
  | .Number n => .Number n
  | .Boolean b => .Boolean b
  | .Null => .Null
  | .Object obj => .Object obj

end clsp

/-! ## Lemmas about the writer -/

namespace clsp

theorem JsonWriter.emit_buffer (w : JsonWriter) (e : Event) :
    (w.emit e).2.buffer = w.buffer ++ [e] := rfl

theorem JsonWriter.emit_accept (w : JsonWriter) (e : Event) :
    (w.emit e).2.accept = w.accept := rfl

theorem JsonWriter.emit_fst (w : JsonWriter) (e : Event) :
    (w.emit e).1 = w.accept w.buffer e := rfl

theorem ObjectT.write_buffer (obj : ObjectT) (w : JsonWriter) :
    (obj.write w).buffer = w.buffer ++ obj.events := by
  unfold ObjectT.write
  generalize obj.events = es
  induction es generalizing w with
  | nil => simp
  | cons e es ih => simp [ih, JsonWriter.emit_buffer]

theorem ObjectT.write_accept (obj : ObjectT) (w : JsonWriter) :
    (obj.write w).accept = w.accept := by
  unfold ObjectT.write
  generalize obj.events = es
  induction es generalizing w with
  | nil => simp
  | cons e es ih => simp [ih, JsonWriter.emit_accept]

theorem JsonWriter.Number_buffer (w : JsonWriter) (n : clsp.Number) :
    (w.Number n).2.buffer = w.buffer ++ [Spec.numberEvent n] := by
  cases n <;> rfl

theorem JsonWriter.Number_accept (w : JsonWriter) (n : clsp.Number) :
    (w.Number n).2.accept = w.accept := by
  cases n <;> rfl

theorem JsonWriter.Number_fst (w : JsonWriter) (n : clsp.Number) :
    (w.Number n).1 = w.accept w.buffer (Spec.numberEvent n) := by
  cases n <;> rfl

theorem JsonWriter.Array_visit_buffer (acc : Boolean × JsonWriter) (ii : ArrayValue) :
    (JsonWriter.Array.visit acc ii).2.buffer = acc.2.buffer ++ Spec.elementEvents ii := by
  cases ii with
  | Number n => cases n <;> rfl
  | Object obj => exact ObjectT.write_buffer obj acc.2
  | _ => rfl

theorem JsonWriter.Array_visit_accept (acc : Boolean × JsonWriter) (ii : ArrayValue) :
    (JsonWriter.Array.visit acc ii).2.accept = acc.2.accept := by
  cases ii with
  | Number n => cases n <;> rfl
  | Object obj => exact ObjectT.write_accept obj acc.2
  | _ => rfl

theorem JsonWriter.Array_loop_buffer (a : clsp.Array) (acc : Boolean × JsonWriter) :
    (a.foldl JsonWriter.Array.visit acc).2.buffer
      = acc.2.buffer ++ a.flatMap Spec.elementEvents := by
  induction a generalizing acc with
  | nil => simp
  | cons ii a ih =>
    simp [List.foldl_cons, ih, JsonWriter.Array_visit_buffer, List.flatMap_cons]

theorem JsonWriter.Array_loop_accept (a : clsp.Array) (acc : Boolean × JsonWriter) :
    (a.foldl JsonWriter.Array.visit acc).2.accept = acc.2.accept := by
  induction a generalizing acc with
  | nil => simp
  | cons ii a ih => simp [List.foldl_cons, ih, JsonWriter.Array_visit_accept]

theorem JsonWriter.Array_buffer (w : JsonWriter) (a : clsp.Array) :
    (w.Array a).2.buffer = w.buffer ++ Spec.sequenceEvents a := by
  simp [JsonWriter.Array, JsonWriter.EndArray, JsonWriter.StartArray, JsonWriter.emit_buffer,
    JsonWriter.Array_loop_buffer, Spec.sequenceEvents]

end clsp

/-! ## Properties of the writer -/

open clsp in
/-- C1: for every Number value, `JsonWriter::Number` sends exactly one token
event chosen by the stored tag: an integer event carrying the same int when the
number holds an int, a real event carrying the same double when it holds a
double; the returned flag is the flag of that one emission, and an int is never
sent as a real nor a double as an integer. -/
theorem C1_Number_emits_by_tag (w : JsonWriter) :
    (∀ i : int,
      (w.Number (.int i)).2.buffer = w.buffer ++ [Event.Int i] ∧
      (w.Number (.int i)).1 = w.accept w.buffer (Event.Int i) ∧
      ∀ d : double, (w.Number (.int i)).2.buffer ≠ w.buffer ++ [Event.Double d]) ∧
    (∀ d : double,
      (w.Number (.double d)).2.buffer = w.buffer ++ [Event.Double d] ∧
      (w.Number (.double d)).1 = w.accept w.buffer (Event.Double d) ∧
      ∀ i : int, (w.Number (.double d)).2.buffer ≠ w.buffer ++ [Event.Int i]) := by
  refine ⟨fun i => ⟨rfl, rfl, fun d h => ?_⟩, fun d => ⟨rfl, rfl, fun i h => ?_⟩⟩
  · have h1 : w.buffer ++ [Event.Int i] = w.buffer ++ [Event.Double d] := h
    simp at h1
  · have h1 : w.buffer ++ [Event.Double d] = w.buffer ++ [Event.Int i] := h
    simp at h1

open clsp in
/-- C2: for every sequence, `JsonWriter::Array` sends an array-start event first,
then the events of each element in the order of the sequence, then an array-end
event last; for the empty sequence it sends exactly array-start, array-end. -/
theorem C2_Array_events_in_order (w : JsonWriter) :
    (∀ a : clsp.Array,
      (w.Array a).2.buffer
        = w.buffer ++ ([Event.StartArray] ++ a.flatMap Spec.elementEvents ++ [Event.EndArray])) ∧
    (∀ (ii : ArrayValue) (a : clsp.Array),
      (w.Array (ii :: a)).2.buffer
        = w.buffer ++ ([Event.StartArray] ++ Spec.elementEvents ii
            ++ a.flatMap Spec.elementEvents ++ [Event.EndArray])) ∧
    (w.Array []).2.buffer = w.buffer ++ [Event.StartArray, Event.EndArray] := by
  refine ⟨fun a => ?_, fun ii a => ?_, ?_⟩
  · exact JsonWriter.Array_buffer w a
  · rw [JsonWriter.Array_buffer]
    simp [Spec.sequenceEvents, List.flatMap_cons]
  · rw [JsonWriter.Array_buffer]
    simp [Spec.sequenceEvents]

open clsp in
/-- C3: for every `TextDocumentRegistrationOptions`, `partialWrite` sends the key
"documentSelector" once, as its first event, followed by exactly one value: a
null event when `documentSelector` holds Null, or array-start, the object write
of each document filter in the selector's order, array-end when it holds a
DocumentSelector.  The nullable field is never omitted. -/
theorem C3_partialWrite_documentSelector (self : TextDocumentRegistrationOptions)
    (writer : JsonWriter) :
    (self.partialWrite writer).buffer
      = writer.buffer ++ Event.Key "documentSelector"
          :: Spec.documentSelectorEvents self.documentSelector := by
  have loop : ∀ (arr : List ObjectT) (w : JsonWriter),
      (arr.foldl (fun w i => (w.Object i).2) w).buffer
        = w.buffer ++ arr.flatMap (fun i => i.events) := by
    intro arr
    induction arr with
    | nil => intro w; simp
    | cons i arr ih =>
      intro w
      rw [List.foldl_cons, ih]
      simp [JsonWriter.Object, ObjectT.write_buffer, List.flatMap_cons]
  obtain ⟨sel⟩ := self
  cases sel with
  | Null =>
    simp [TextDocumentRegistrationOptions.partialWrite, JsonWriter.Null, JsonWriter.Key,
      JsonWriter.emit_buffer, Spec.documentSelectorEvents,
      TextDocumentRegistrationOptions.documentSelectorKey]
  | DocumentSelector arr =>
    simp [TextDocumentRegistrationOptions.partialWrite, JsonWriter.EndArray,
      JsonWriter.StartArray, JsonWriter.Key, JsonWriter.emit_buffer, loop,
      Spec.documentSelectorEvents, TextDocumentRegistrationOptions.documentSelectorKey]

open clsp in
/-- C4: `JsonWriter::Any` matches exhaustively on the six value kinds; for every
Any value it does what the kind-specific operation does and returns its result:
String for text, Number for a number, Bool for a boolean, Null for null, Object
for an object reference and Array for a sequence. -/
theorem C4_Any_dispatches_on_every_kind (w : JsonWriter) :
    (∀ str, w.Any (.String str) = w.String str) ∧
    (∀ n, w.Any (.Number n) = w.Number n) ∧
    (∀ b, w.Any (.Boolean b) = w.Bool b) ∧
    w.Any .Null = w.Null ∧
    (∀ obj, w.Any (.Object obj) = w.Object obj) ∧
    (∀ a, w.Any (.Array a) = w.Array a) ∧
    (∀ a : clsp.Any,
      (∃ str, a = .String str) ∨ (∃ n, a = .Number n) ∨ (∃ b, a = .Boolean b) ∨
      a = .Null ∨ (∃ obj, a = .Object obj) ∨ (∃ s, a = .Array s)) := by
  refine ⟨fun _ => rfl, fun _ => rfl, fun _ => rfl, rfl, fun _ => rfl, fun _ => rfl, ?_⟩
  intro a
  cases a <;> simp

open clsp in
/-- C5 (as stated, refuted): the specification's sequence whose only element is
the empty Sequence is not denoted by any `clsp::Array`, so `JsonWriter::Array`
cannot be given a sequence with a nested Sequence element. -/
theorem C5_no_nested_sequence_element :
    ¬ ∃ a : clsp.Array, a.map ArrayValue.toJsonValue = [Spec.JsonValue.Sequence []] := by
  rintro ⟨a, h⟩
  cases a with
  | nil => simp at h
  | cons ii a =>
    have h1 : ii.toJsonValue = Spec.JsonValue.Sequence [] := by
      simp only [List.map_cons, List.cons.injEq] at h
      exact h.1
    cases ii with
    | Number n => cases n <;> simp [ArrayValue.toJsonValue] at h1
    | _ => simp [ArrayValue.toJsonValue] at h1

open clsp in
/-- C5 (amended): an element of a sequence given to `JsonWriter::Array` is a
Text, Integer, Real, Boolean, Null or Object, never a nested Sequence; for every
such sequence the loop of `JsonWriter::Array` writes each element according to
its own kind, that is exactly as `JsonWriter::Any` writes a value of that kind,
between an array start and an array end. -/
theorem C5_Array_writes_each_element_by_kind (w : JsonWriter) :
    (∀ (acc : Boolean × JsonWriter) (ii : ArrayValue),
      JsonWriter.Array.visit acc ii
        = (acc.1 && (acc.2.Any ii.toAny).1, (acc.2.Any ii.toAny).2)) ∧
    (∀ (ii : ArrayValue),
      (w.Any ii.toAny).2.buffer = w.buffer ++ Spec.elementEvents ii) ∧
    (∀ a : clsp.Array,
      (w.Array a).2.buffer
        = w.buffer ++ ([Event.StartArray] ++ a.flatMap Spec.elementEvents ++ [Event.EndArray])) ∧
    (∀ (ii : ArrayValue) (s : List Spec.JsonValue), ii.toJsonValue ≠ .Sequence s) ∧
    (∀ (ii : ArrayValue) (s : clsp.Array), ii.toAny ≠ .Array s) := by
  refine ⟨fun acc ii => ?_, fun ii => ?_, fun a => JsonWriter.Array_buffer w a, ?_, ?_⟩
  · cases ii <;> rfl
  · cases ii with
    | Number n => cases n <;> rfl
    | Object obj => exact ObjectT.write_buffer obj w
    | _ => rfl
  · intro ii s
    cases ii with
    | Number n => cases n <;> simp [ArrayValue.toJsonValue]
    | _ => simp [ArrayValue.toJsonValue]
  · intro ii s
    cases ii <;> simp [ArrayValue.toAny]

open clsp in
/-- C6 (the code at the failing input): the `partialWrite` overriders of
`DeclarationRegistrationOptions` and `DocumentRangeFormattingRegistrationOptions`
leave the writer as it was for every value, so at a value whose
`documentSelector` holds Null they send nothing, where
`TextDocumentRegistrationOptions::partialWrite` of the same value sends the key
"documentSelector" and a null event. -/
theorem C6_partialWrite_overriders_send_nothing :
    (∀ (T : Type) (self : DeclarationRegistrationOptions T) (writer : JsonWriter),
      self.partialWrite writer = writer) ∧
    (∀ (T : Type) (self : DocumentRangeFormattingRegistrationOptions T) (writer : JsonWriter),
      self.partialWrite writer = writer) ∧
    ((DeclarationRegistrationOptions.mk (WorkDoneProgressOptions.mk (none : Option clsp.Number))
        (TextDocumentRegistrationOptions.mk .Null) (StaticRegistrationOptions.mk none)).partialWrite
      (JsonWriter.mk [] (fun _ _ => true))).buffer = [] ∧
    ((DocumentRangeFormattingRegistrationOptions.mk (TextDocumentRegistrationOptions.mk .Null)
        (WorkDoneProgressOptions.mk (none : Option clsp.Number))).partialWrite
      (JsonWriter.mk [] (fun _ _ => true))).buffer = [] ∧
    ((TextDocumentRegistrationOptions.mk .Null).partialWrite
      (JsonWriter.mk [] (fun _ _ => true))).buffer
        = [Event.Key "documentSelector", Event.Null] := by
  refine ⟨fun _ _ _ => rfl, fun _ _ _ => rfl, rfl, rfl, ?_⟩
  decide

namespace clsp

theorem JsonWriter.Array_visit_fst (acc : Boolean × JsonWriter) (ii : ArrayValue)
    (hacc : acc.1 = true) (h : Spec.primitivesSucceed acc.2.accept) :
    (JsonWriter.Array.visit acc ii).1 = true := by
  obtain ⟨hs, hi, hd, hb, hn⟩ := h
  cases ii with
  | Number n =>
    cases n <;>
      simp [JsonWriter.Array.visit, JsonWriter.Number, JsonWriter.Int, JsonWriter.Double,
        JsonWriter.emit, hacc, hi, hd]
  | Object obj => simp [JsonWriter.Array.visit, JsonWriter.Object, hacc]
  | _ =>
    simp [JsonWriter.Array.visit, JsonWriter.String, JsonWriter.Bool, JsonWriter.Null,
      JsonWriter.emit, hacc, hs, hb, hn]

theorem JsonWriter.Array_loop_fst (a : clsp.Array) (acc : Boolean × JsonWriter)
    (hacc : acc.1 = true) (h : Spec.primitivesSucceed acc.2.accept) :
    (a.foldl JsonWriter.Array.visit acc).1 = true := by
  induction a generalizing acc with
  | nil => simpa using hacc
  | cons ii a ih =>
    rw [List.foldl_cons]
    apply ih
    · exact JsonWriter.Array_visit_fst acc ii hacc h
    · rw [JsonWriter.Array_visit_accept]
      exact h

theorem JsonWriter.Array_fst (w : JsonWriter) (a : clsp.Array)
    (h : Spec.primitivesSucceed w.accept) : (w.Array a).1 = true := by
  unfold JsonWriter.Array
  exact JsonWriter.Array_loop_fst a _ rfl h

end clsp

open clsp in
/-- C7: `JsonWriter::Object` returns true for every object, and when every
primitive emission (string, int, double, bool, null) of the writer returns true,
`JsonWriter::Number`, `JsonWriter::Array` and `JsonWriter::Any` return true for
every value. -/
theorem C7_writing_succeeds :
    (∀ (w : JsonWriter) (obj : ObjectT), (w.Object obj).1 = true) ∧
    (∀ w : JsonWriter, Spec.primitivesSucceed w.accept →
      (∀ n : clsp.Number, (w.Number n).1 = true) ∧
      (∀ a : clsp.Array, (w.Array a).1 = true) ∧
      (∀ a : clsp.Any, (w.Any a).1 = true)) := by
  refine ⟨fun _ _ => rfl, fun w h => ?_⟩
  have hn : ∀ n : clsp.Number, (w.Number n).1 = true := by
    intro n
    rw [JsonWriter.Number_fst]
    cases n with
    | int i => exact h.2.1 _ i
    | double d => exact h.2.2.1 _ d
  refine ⟨hn, fun a => JsonWriter.Array_fst w a h, fun a => ?_⟩
  cases a with
  | String str => exact h.1 _ str
  | Number n => exact hn n
  | Boolean b => exact h.2.2.2.1 _ b
  | Null => exact h.2.2.2.2 _
  | Object obj => rfl
  | Array a => exact JsonWriter.Array_fst w a h

open clsp in
/-- C7, at a writer whose primitive emissions return true (its array-start and
array-end emissions return false) and an Any holding a sequence of a number, a
text and an object. -/
theorem C7_writing_succeeds_witness :
    Spec.primitivesSucceed
      (fun _ e => match e with | .StartArray => false | .EndArray => false | _ => true) ∧
    ((JsonWriter.mk []
        (fun _ e => match e with | .StartArray => false | .EndArray => false | _ => true)).Any
      (.Array [.Number (.double ⟨0⟩), .String "a",
        .Object ⟨[Event.StartObject, Event.EndObject]⟩])).1 = true :=
  ⟨⟨fun _ _ => rfl, fun _ _ => rfl, fun _ _ => rfl, fun _ _ => rfl, fun _ => rfl⟩,
   (C7_writing_succeeds.2
      (JsonWriter.mk []
        (fun _ e => match e with | .StartArray => false | .EndArray => false | _ => true))
      ⟨fun _ _ => rfl, fun _ _ => rfl, fun _ _ => rfl, fun _ _ => rfl, fun _ => rfl⟩).2.2 _⟩

/-! ## Properties of the cancelRequest capability and of registries -/

open clsp in
/-- C8: the value setter returned by the reader of `Capability::cancelRequest`
has a callback for the object-start token kind only: its string, number,
boolean, null and array-start callbacks are absent, for every handler and data
argument. -/
theorem C8_cancelRequest_setter_object_only {P S : Type} (decl : CancelParamsDecl P S)
    (refs : Refs P S) :
    (Capability.cancelRequest decl).params.reader = some (Capability.cancelRequest_reader decl) ∧
    (Capability.cancelRequest_reader decl refs).1.onText.isNone = true ∧
    (Capability.cancelRequest_reader decl refs).1.onNumber.isNone = true ∧
    (Capability.cancelRequest_reader decl refs).1.onBool.isNone = true ∧
    (Capability.cancelRequest_reader decl refs).1.onNull.isNone = true ∧
    (Capability.cancelRequest_reader decl refs).1.onArrayStart.isNone = true ∧
    (Capability.cancelRequest_reader decl refs).1.onObjectStart.isSome = true :=
  ⟨rfl, rfl, rfl, rfl, rfl, rfl, rfl⟩

open clsp in
/-- C9: invoking the object-start callback of the setter returned by the
cancelRequest reader, on any handler, pushes exactly one new registry frame onto
the parse stack (the depth grows by one, the frames below are unchanged) and
that new top frame is the empty registry filled by `fillInitializer` of the
`CancelParams` instance the reader stored in `data`; `data` is left as it is. -/
theorem C9_object_callback_pushes_filled_frame {P S : Type} (decl : CancelParamsDecl P S)
    (refs : Refs P S) (handler : JsonHandler S) :
    ∃ (callback : Refs P S → Option (Refs P S)) (params : P) (refs1 : Refs P S),
      (Capability.cancelRequest_reader decl refs).1.onObjectStart = some callback ∧
      (Capability.cancelRequest_reader decl refs).2.data = some (StdAny.CancelParams params) ∧
      (Capability.cancelRequest_reader decl refs).2.handler = refs.handler ∧
      callback { handler := handler, data := (Capability.cancelRequest_reader decl refs).2.data }
        = some refs1 ∧
      refs1.handler.objectStack
        = decl.fillInitializer params ObjectInitializer.empty :: handler.objectStack ∧
      refs1.handler.objectStack.length = handler.objectStack.length + 1 ∧
      refs1.handler.objectStack.tail = handler.objectStack ∧
      refs1.data = some (StdAny.CancelParams params) :=
  ⟨Capability.cancelRequest_reader_Object decl, decl.ctor, _, rfl, rfl, rfl, rfl, rfl, rfl, rfl,
    rfl⟩

open clsp in
/-- C10 (the code at the failing input): `CodeActionParams::fillInitializer`
returns the registry it was given, so after it runs on the empty registry the
registry is still empty and has no entry for "textDocument", "range",
"context", "workDoneToken" or "partialResultToken". -/
theorem C10_fillInitializer_leaves_registry_empty {T D R C S : Type}
    (self : libclsp.CodeActionParams T D R C) :
    (∀ initializer : ObjectInitializer S, self.fillInitializer initializer = initializer) ∧
    (self.fillInitializer (ObjectInitializer.empty : ObjectInitializer S)).fields = [] ∧
    (∀ key : clsp.String,
      (self.fillInitializer (ObjectInitializer.empty : ObjectInitializer S)).contains key
        = false) :=
  ⟨fun _ => rfl, rfl, fun _ => rfl⟩

/-! ## Nesting of the written events -/

namespace Spec

open clsp

theorem scan_append (open_ : List Level) (xs ys : List Event) :
    scan open_ (xs ++ ys) = (scan open_ xs).bind (fun next => scan next ys) := by
  induction xs generalizing open_ with
  | nil => simp [scan]
  | cons e xs ih =>
    simp only [List.cons_append, scan]
    cases step open_ e with
    | none => simp
    | some next => simp [ih]

theorem step_frame (open_ rest next : List Level) (e : Event)
    (h : step open_ e = some next) : step (open_ ++ rest) e = some (next ++ rest) := by
  cases e <;> simp only [step, Option.some.injEq] at h ⊢ <;> try (subst h; rfl)
  all_goals
    cases open_ with
    | nil => simp at h
    | cons l ls =>
      cases l <;> simp at h ⊢
      exact h

theorem scan_frame (open_ rest : List Level) (es : List Event) :
    ∀ last, scan open_ es = some last → scan (open_ ++ rest) es = some (last ++ rest) := by
  induction es generalizing open_ with
  | nil =>
    intro last h
    simp only [scan, Option.some.injEq] at h ⊢
    rw [h]
  | cons e es ih =>
    intro last h
    simp only [scan] at h ⊢
    cases hs : step open_ e with
    | none => simp [hs] at h
    | some next =>
      rw [hs] at h
      simp only [Option.some_bind] at h
      rw [step_frame open_ rest next e hs]
      simpa using ih next last h

theorem scan_balanced (open_ : List Level) (es : List Event) (h : balanced es) :
    scan open_ es = some open_ := by
  have := scan_frame [] open_ es [] h
  simpa using this

theorem scan_take_isSome (open_ last : List Level) (es : List Event)
    (h : scan open_ es = some last) (n : Nat) : (scan open_ (es.take n)).isSome = true := by
  have h1 : scan open_ (es.take n ++ es.drop n) = some last := by
    rw [List.take_append_drop]
    exact h
  rw [scan_append] at h1
  cases hs : scan open_ (es.take n) with
  | none => simp [hs] at h1
  | some mid => rfl

theorem arrayDepth_nil : arrayDepth [] = 0 := by
  simp [arrayDepth]

theorem arrayDepth_cons (e : Event) (es : List Event) :
    arrayDepth (e :: es) = arrayDepth [e] + arrayDepth es := by
  simp only [arrayDepth, List.count_cons, List.count_nil]
  push_cast
  ring

theorem step_arrayDepth (open_ next : List Level) (e : Event) (h : step open_ e = some next) :
    (next.count Level.array : Int) = open_.count Level.array + arrayDepth [e] := by
  cases e <;> simp only [step, Option.some.injEq] at h
  case StartArray => subst h; simp [arrayDepth]
  case StartObject => subst h; simp [arrayDepth]
  case EndArray =>
    cases open_ with
    | nil => simp at h
    | cons l ls =>
      cases l <;> simp at h
      subst h
      simp [arrayDepth]
  case EndObject =>
    cases open_ with
    | nil => simp at h
    | cons l ls =>
      cases l <;> simp at h
      subst h
      simp [arrayDepth]
  all_goals
    subst h
    simp [arrayDepth]

theorem scan_arrayDepth (open_ : List Level) (es : List Event) :
    ∀ last, scan open_ es = some last →
      (last.count Level.array : Int) = open_.count Level.array + arrayDepth es := by
  induction es generalizing open_ with
  | nil =>
    intro last h
    simp only [scan, Option.some.injEq] at h
    subst h
    simp [arrayDepth_nil]
  | cons e es ih =>
    intro last h
    simp only [scan] at h
    cases hs : step open_ e with
    | none => simp [hs] at h
    | some next =>
      rw [hs] at h
      simp only [Option.some_bind] at h
      rw [ih next last h, step_arrayDepth open_ next e hs, arrayDepth_cons e es]
      ring

theorem wellNested_of_balanced (es : List Event) (h : balanced es) : wellNested es := by
  refine ⟨h, fun n => scan_take_isSome [] [] es h n, ?_, fun n => ?_⟩
  · have := scan_arrayDepth [] es [] h
    simpa using this.symm
  · have hsome := scan_take_isSome [] [] es h n
    cases hs : scan [] (es.take n) with
    | none => simp [hs] at hsome
    | some mid =>
      have := scan_arrayDepth [] (es.take n) mid hs
      simp only [List.count_nil, Nat.cast_zero, zero_add] at this
      rw [← this]
      exact Int.natCast_nonneg _

end Spec

namespace Spec

open clsp

theorem emitted_of_buffer (before after : JsonWriter) (es : List Event)
    (h : after.buffer = before.buffer ++ es) : emitted before after = es := by
  simp [emitted, h]

theorem scan_elementEvents (open_ : List Level) (ii : ArrayValue)
    (h : ∀ obj ∈ arrayObjects [ii], balanced obj.events) :
    scan open_ (elementEvents ii) = some open_ := by
  cases ii with
  | Number n => cases n <;> rfl
  | Object obj =>
    apply scan_balanced
    apply h
    simp [arrayObjects]
  | _ => rfl

theorem scan_elements (open_ : List Level) (a : clsp.Array)
    (h : ∀ obj ∈ arrayObjects a, balanced obj.events) :
    scan open_ (a.flatMap elementEvents) = some open_ := by
  induction a with
  | nil => simp [scan]
  | cons ii a ih =>
    have hii : ∀ obj ∈ arrayObjects [ii], balanced obj.events := by
      intro obj hobj
      apply h
      cases ii <;> simp_all [arrayObjects]
    have ha : ∀ obj ∈ arrayObjects a, balanced obj.events := by
      intro obj hobj
      apply h
      cases ii <;> simp_all [arrayObjects]
    rw [List.flatMap_cons, scan_append, scan_elementEvents open_ ii hii]
    simpa using ih ha

theorem balanced_sequenceEvents (a : clsp.Array)
    (h : ∀ obj ∈ arrayObjects a, balanced obj.events) : balanced (sequenceEvents a) := by
  unfold balanced sequenceEvents
  rw [scan_append, scan_append]
  simp [scan, step, scan_elements [Level.array] a h]

theorem scan_objects (open_ : List Level) (arr : List ObjectT)
    (h : ∀ obj ∈ arr, balanced obj.events) :
    scan open_ (arr.flatMap (fun i => i.events)) = some open_ := by
  induction arr with
  | nil => simp [scan]
  | cons i arr ih =>
    rw [List.flatMap_cons, scan_append, scan_balanced open_ i.events (h i (by simp))]
    simpa using ih (fun obj hobj => h obj (by simp [hobj]))

theorem balanced_documentSelectorEvents (sel : DocumentSelectorOrNull)
    (h : ∀ obj ∈ selectorObjects sel, balanced obj.events) :
    balanced (Event.Key "documentSelector" :: documentSelectorEvents sel) := by
  cases sel with
  | Null => rfl
  | DocumentSelector arr =>
    have hs := scan_objects [Level.array] arr h
    simp [balanced, documentSelectorEvents, scan, step, scan_append, hs]

end Spec

namespace clsp

theorem TextDocumentRegistrationOptions.partialWrite_buffer
    (self : TextDocumentRegistrationOptions) (writer : JsonWriter) :
    (self.partialWrite writer).buffer
      = writer.buffer ++ Event.Key "documentSelector"
          :: Spec.documentSelectorEvents self.documentSelector := by
  have loop : ∀ (arr : List ObjectT) (w : JsonWriter),
      (arr.foldl (fun w i => (w.Object i).2) w).buffer
        = w.buffer ++ arr.flatMap (fun i => i.events) := by
    intro arr
    induction arr with
    | nil => intro w; simp
    | cons i arr ih =>
      intro w
      rw [List.foldl_cons, ih]
      simp [JsonWriter.Object, ObjectT.write_buffer, List.flatMap_cons]
  obtain ⟨sel⟩ := self
  cases sel with
  | Null =>
    simp [TextDocumentRegistrationOptions.partialWrite, JsonWriter.Null, JsonWriter.Key,
      JsonWriter.emit_buffer, Spec.documentSelectorEvents,
      TextDocumentRegistrationOptions.documentSelectorKey]
  | DocumentSelector arr =>
    simp [TextDocumentRegistrationOptions.partialWrite, JsonWriter.EndArray,
      JsonWriter.StartArray, JsonWriter.Key, JsonWriter.emit_buffer, loop,
      Spec.documentSelectorEvents, TextDocumentRegistrationOptions.documentSelectorKey]

end clsp

open clsp in
/-- C11: the token events sent by `JsonWriter::Array` and `JsonWriter::Any` are
well nested.  Provided the write of every nested object sends a balanced event
sequence, the sent sequence is balanced (every array start is closed by one
array end at its depth), no prefix of it closes more arrays than it opened, and
the same holds for `TextDocumentRegistrationOptions::partialWrite`; an Any
holding a scalar (text, number, boolean, null) sends exactly one event. -/
theorem C11_written_events_well_nested (w : JsonWriter) :
    (∀ a : clsp.Array, (∀ obj ∈ Spec.arrayObjects a, Spec.balanced obj.events) →
      Spec.wellNested (Spec.emitted w (w.Array a).2)) ∧
    (∀ a : clsp.Any, (∀ obj ∈ Spec.anyObjects a, Spec.balanced obj.events) →
      Spec.wellNested (Spec.emitted w (w.Any a).2)) ∧
    (∀ self : TextDocumentRegistrationOptions,
      (∀ obj ∈ Spec.selectorObjects self.documentSelector, Spec.balanced obj.events) →
      Spec.wellNested (Spec.emitted w (self.partialWrite w))) ∧
    (∀ str, Spec.emitted w (w.Any (.String str)).2 = [Event.String str]) ∧
    (∀ n, Spec.emitted w (w.Any (.Number (.int n))).2 = [Event.Int n]) ∧
    (∀ n, Spec.emitted w (w.Any (.Number (.double n))).2 = [Event.Double n]) ∧
    (∀ b, Spec.emitted w (w.Any (.Boolean b)).2 = [Event.Bool b]) ∧
    Spec.emitted w (w.Any .Null).2 = [Event.Null] := by
  have harr : ∀ a : clsp.Array, (∀ obj ∈ Spec.arrayObjects a, Spec.balanced obj.events) →
      Spec.wellNested (Spec.emitted w (w.Array a).2) := by
    intro a h
    rw [Spec.emitted_of_buffer w _ _ (JsonWriter.Array_buffer w a)]
    exact Spec.wellNested_of_balanced _ (Spec.balanced_sequenceEvents a h)
  have hone : ∀ e : Event, Spec.emitted w (w.emit e).2 = [e] :=
    fun e => Spec.emitted_of_buffer w _ _ (JsonWriter.emit_buffer w e)
  refine ⟨harr, fun a h => ?_, fun self h => ?_, fun str => hone _, fun n => hone _,
    fun n => hone _, fun b => hone _, hone _⟩
  · cases a with
    | Array a => exact harr a h
    | Object obj =>
      rw [show Spec.emitted w (w.Any (.Object obj)).2 = obj.events from
        Spec.emitted_of_buffer w _ _ (ObjectT.write_buffer obj w)]
      exact Spec.wellNested_of_balanced _ (h obj (by simp [Spec.anyObjects]))
    | Number n =>
      rw [show Spec.emitted w (w.Any (.Number n)).2 = [Spec.numberEvent n] from
        Spec.emitted_of_buffer w _ _ (JsonWriter.Number_buffer w n)]
      exact Spec.wellNested_of_balanced _ (by cases n <;> rfl)
    | String str =>
      rw [show Spec.emitted w (w.Any (.String str)).2 = [Event.String str] from hone _]
      exact Spec.wellNested_of_balanced _ rfl
    | Boolean b =>
      rw [show Spec.emitted w (w.Any (.Boolean b)).2 = [Event.Bool b] from hone _]
      exact Spec.wellNested_of_balanced _ rfl
    | Null =>
      rw [show Spec.emitted w (w.Any .Null).2 = [Event.Null] from hone _]
      exact Spec.wellNested_of_balanced _ rfl
  · rw [Spec.emitted_of_buffer w _ _
      (TextDocumentRegistrationOptions.partialWrite_buffer self w)]
    exact Spec.wellNested_of_balanced _ (Spec.balanced_documentSelectorEvents _ h)

open clsp in
/-- C11, at a writer that has already sent two events: a sequence holding a
number, an object whose write is balanced and a null, the same sequence in an
Any, and a document selector with one such filter. -/
theorem C11_written_events_well_nested_witness :
    ((∀ obj ∈ Spec.arrayObjects
        [.Number (.int 1),
         .Object ⟨[Event.StartObject, Event.Key "k", Event.StartArray, Event.Int 1,
           Event.EndArray, Event.EndObject]⟩,
         .Null],
        Spec.balanced obj.events) ∧
      Spec.wellNested (Spec.emitted
        (JsonWriter.mk [Event.StartObject, Event.Key "a"] (fun _ _ => true))
        ((JsonWriter.mk [Event.StartObject, Event.Key "a"] (fun _ _ => true)).Array
          [.Number (.int 1),
           .Object ⟨[Event.StartObject, Event.Key "k", Event.StartArray, Event.Int 1,
             Event.EndArray, Event.EndObject]⟩,
           .Null]).2)) ∧
    ((∀ obj ∈ Spec.anyObjects
        (.Array [.Object ⟨[Event.StartObject, Event.EndObject]⟩, .Boolean true]),
        Spec.balanced obj.events) ∧
      Spec.wellNested (Spec.emitted
        (JsonWriter.mk [Event.StartObject, Event.Key "a"] (fun _ _ => true))
        ((JsonWriter.mk [Event.StartObject, Event.Key "a"] (fun _ _ => true)).Any
          (.Array [.Object ⟨[Event.StartObject, Event.EndObject]⟩, .Boolean true])).2)) ∧
    ((∀ obj ∈ Spec.selectorObjects
        (TextDocumentRegistrationOptions.mk
          (.DocumentSelector [⟨[Event.StartObject, Event.EndObject]⟩])).documentSelector,
        Spec.balanced obj.events) ∧
      Spec.wellNested (Spec.emitted
        (JsonWriter.mk [Event.StartObject, Event.Key "a"] (fun _ _ => true))
        ((TextDocumentRegistrationOptions.mk
          (.DocumentSelector [⟨[Event.StartObject, Event.EndObject]⟩])).partialWrite
          (JsonWriter.mk [Event.StartObject, Event.Key "a"] (fun _ _ => true))))) := by
  have h1 : ∀ obj ∈ Spec.arrayObjects
      [.Number (.int 1),
       .Object ⟨[Event.StartObject, Event.Key "k", Event.StartArray, Event.Int 1,
         Event.EndArray, Event.EndObject]⟩,
       .Null],
      Spec.balanced obj.events := by
    intro obj h
    simp only [Spec.arrayObjects, List.filterMap_cons, List.filterMap_nil,
      List.mem_singleton] at h
    subst h
    decide
  have h2 : ∀ obj ∈ Spec.anyObjects
      (.Array [.Object ⟨[Event.StartObject, Event.EndObject]⟩, .Boolean true]),
      Spec.balanced obj.events := by
    intro obj h
    simp only [Spec.anyObjects, Spec.arrayObjects, List.filterMap_cons, List.filterMap_nil,
      List.mem_singleton] at h
    subst h
    decide
  have h3 : ∀ obj ∈ Spec.selectorObjects
      (TextDocumentRegistrationOptions.mk
        (.DocumentSelector [⟨[Event.StartObject, Event.EndObject]⟩])).documentSelector,
      Spec.balanced obj.events := by
    intro obj h
    simp only [Spec.selectorObjects, List.mem_singleton] at h
    subst h
    decide
  exact ⟨⟨h1, (C11_written_events_well_nested _).1 _ h1⟩,
    ⟨h2, (C11_written_events_well_nested _).2.1 _ h2⟩,
    ⟨h3, (C11_written_events_well_nested _).2.2.1 _ h3⟩⟩

/-! ## The cancelRequest reader and its data -/

open clsp in
/-- C12: calling the cancelRequest reader replaces whatever `data` held.  For
every prior content of the optional (absent, an empty any, a `CancelParams`, a
value of another type), after the call `data` is present and holds the
default-constructed `CancelParams`, the handler is untouched, and the object
callback of the returned setter fills the new registry frame from the instance
held by `data`: the default-constructed one right after the call. -/
theorem C12_reader_replaces_data {P S : Type} (decl : CancelParamsDecl P S)
    (handler : JsonHandler S) :
    (∀ data : Option (StdAny P),
      (Capability.cancelRequest_reader decl { handler := handler, data := data }).2
        = { handler := handler, data := some (StdAny.CancelParams decl.ctor) }) ∧
    (Capability.cancelRequest_reader decl { handler := handler, data := none }).2.data
      = some (StdAny.CancelParams decl.ctor) ∧
    (Capability.cancelRequest_reader decl
        { handler := handler, data := some StdAny.empty }).2.data
      = some (StdAny.CancelParams decl.ctor) ∧
    (∀ params : P,
      (Capability.cancelRequest_reader decl
          { handler := handler, data := some (StdAny.CancelParams params) }).2.data
        = some (StdAny.CancelParams decl.ctor)) ∧
    (∀ typeName : StdString,
      (Capability.cancelRequest_reader decl
          { handler := handler, data := some (StdAny.other typeName) }).2.data
        = some (StdAny.CancelParams decl.ctor)) ∧
    (∀ data : Option (StdAny P),
      ∃ callback : Refs P S → Option (Refs P S),
        (Capability.cancelRequest_reader decl
            { handler := handler, data := data }).1.onObjectStart = some callback ∧
        callback (Capability.cancelRequest_reader decl { handler := handler, data := data }).2
          = some
              { handler :=
                  { objectStack :=
                      decl.fillInitializer decl.ctor ObjectInitializer.empty
                        :: handler.objectStack }
                data := some (StdAny.CancelParams decl.ctor) } ∧
        ∀ (later : JsonHandler S) (params : P),
          callback { handler := later, data := some (StdAny.CancelParams params) }
            = some
                { handler :=
                    { objectStack :=
                        decl.fillInitializer params ObjectInitializer.empty
                          :: later.objectStack }
                  data := some (StdAny.CancelParams params) }) := by
  refine ⟨fun _ => rfl, rfl, rfl, fun _ => rfl, fun _ => rfl, fun data => ?_⟩
  exact ⟨Capability.cancelRequest_reader_Object decl, rfl, rfl, fun _ _ => rfl⟩

/-! ## The order of code action kinds -/

theorem StdString.compare_eq_lt_iff (as bs : List Char) :
    StdString.compare as bs = Ordering.lt ↔ List.Lex (fun x y => x < y) as bs := by
  induction as generalizing bs with
  | nil =>
    cases bs with
    | nil => simp [StdString.compare]
    | cons b bs => simp [StdString.compare, List.Lex.nil]
  | cons a as ih =>
    cases bs with
    | nil => simp [StdString.compare]
    | cons b bs =>
      simp only [StdString.compare]
      by_cases hab : a < b
      · simp [hab, List.Lex.rel]
      · by_cases hba : b < a
        · simp only [hab, hba, if_false, if_true]
          constructor
          · intro h
            cases h
          · intro h
            cases h with
            | cons h1 => exact absurd hba (lt_irrefl _)
            | rel h1 => exact absurd h1 hab
        · have heq : a = b := le_antisymm (not_lt.mp hba) (not_lt.mp hab)
          subst heq
          simp only [hab, if_false]
          rw [ih bs]
          exact List.Lex.cons_iff.symm

theorem StdString.less_iff (lhs rhs : StdString) :
    StdString.less lhs rhs = true ↔ lhs < rhs := by
  have h1 : lhs < rhs ↔ List.Lex (fun x y => x < y) lhs.data rhs.data :=
    String.lt_iff_toList_lt
  rw [h1, ← StdString.compare_eq_lt_iff]
  unfold StdString.less
  cases StdString.compare lhs.data rhs.data <;> decide

open libclsp in
/-- C13: `CodeActionKind::operator<` is exactly the lexicographic comparison of
the two kind strings, hence a strict total order on kinds: irreflexive,
asymmetric, transitive, and of two kinds with different strings exactly one is
less than the other. -/
theorem C13_operator_lt_strict_total_order :
    (∀ a b : CodeActionKind,
      a.operator_lt b = true ↔ List.Lex (fun x y => x < y) a.kind.data b.kind.data) ∧
    (∀ a b : CodeActionKind, a.operator_lt b = true ↔ a.kind < b.kind) ∧
    (∀ a : CodeActionKind, a.operator_lt a = false) ∧
    (∀ a b : CodeActionKind, a.operator_lt b = true → b.operator_lt a = false) ∧
    (∀ a b c : CodeActionKind,
      a.operator_lt b = true → b.operator_lt c = true → a.operator_lt c = true) ∧
    (∀ a b : CodeActionKind, a.kind ≠ b.kind →
      (a.operator_lt b = true ∧ b.operator_lt a = false) ∨
      (a.operator_lt b = false ∧ b.operator_lt a = true)) := by
  have hlt : ∀ a b : CodeActionKind, a.operator_lt b = true ↔ a.kind < b.kind :=
    fun a b => StdString.less_iff a.kind b.kind
  have hnot : ∀ a b : CodeActionKind, ¬ a.kind < b.kind → a.operator_lt b = false := by
    intro a b h
    cases hv : a.operator_lt b with
    | false => rfl
    | true => exact absurd ((hlt a b).mp hv) h
  refine ⟨fun a b => ?_, hlt, fun a => hnot a a (lt_irrefl _), fun a b hab => ?_,
    fun a b c hab hbc => ?_, fun a b hne => ?_⟩
  · rw [hlt]
    exact String.lt_iff_toList_lt
  · exact hnot b a (lt_asymm ((hlt a b).mp hab))
  · exact (hlt a c).mpr (lt_trans ((hlt a b).mp hab) ((hlt b c).mp hbc))
  · rcases lt_or_gt_of_ne hne with h | h
    · exact Or.inl ⟨(hlt a b).mpr h, hnot b a (lt_asymm h)⟩
    · exact Or.inr ⟨hnot a b (lt_asymm h), (hlt b a).mpr h⟩

open libclsp in
/-- C13, at the kinds 'quickfix', 'refactor' and 'refactor.extract'. -/
theorem C13_operator_lt_strict_total_order_witness :
    ((CodeActionKind.mk "quickfix").operator_lt (CodeActionKind.mk "refactor") = true ∧
      (CodeActionKind.mk "refactor").operator_lt (CodeActionKind.mk "quickfix") = false) ∧
    ((CodeActionKind.mk "quickfix").operator_lt (CodeActionKind.mk "refactor") = true ∧
      (CodeActionKind.mk "refactor").operator_lt (CodeActionKind.mk "refactor.extract") = true ∧
      (CodeActionKind.mk "quickfix").operator_lt (CodeActionKind.mk "refactor.extract")
        = true) ∧
    ((CodeActionKind.mk "refactor.extract").kind ≠ (CodeActionKind.mk "refactor").kind ∧
      (((CodeActionKind.mk "refactor.extract").operator_lt (CodeActionKind.mk "refactor") = true ∧
          (CodeActionKind.mk "refactor").operator_lt (CodeActionKind.mk "refactor.extract")
            = false) ∨
        ((CodeActionKind.mk "refactor.extract").operator_lt (CodeActionKind.mk "refactor")
            = false ∧
          (CodeActionKind.mk "refactor").operator_lt (CodeActionKind.mk "refactor.extract")
            = true))) := by
  have h1 : (CodeActionKind.mk "quickfix").operator_lt (CodeActionKind.mk "refactor") = true := by
    decide
  have h2 : (CodeActionKind.mk "refactor").operator_lt (CodeActionKind.mk "refactor.extract")
      = true := by
    decide
  have h3 : (CodeActionKind.mk "refactor.extract").kind ≠ (CodeActionKind.mk "refactor").kind := by
    decide
  exact ⟨⟨h1, C13_operator_lt_strict_total_order.2.2.2.1 _ _ h1⟩,
    ⟨h1, h2, C13_operator_lt_strict_total_order.2.2.2.2.1 _ _ _ h1 h2⟩,
    ⟨h3, C13_operator_lt_strict_total_order.2.2.2.2.2 _ _ h3⟩⟩
